import Mathlib

/-!
Verification of the NFL GPP Monte Carlo simulator (`src/app.py`) against its
natural-language specification.

The simulation pipeline in `app.py` operates on a pandas DataFrame loaded from
an uploaded CSV.  We embed DataFrames column-major: a list of named columns of
cells.  A cell is a string, a rational number (exact model of a float), or one
of the IEEE non-finite values NaN / +inf / -inf, which pandas produces on
degenerate arithmetic such as 0.0 / 0.0.  All NumPy vectorised operations used
by the source are elementwise, so they are embedded as `List.map` / `zipWith`.

The seeded NumPy global random generator is modelled as a deterministic stream
of unit-interval rationals derived from the seed; everything the claims need
from it is (a) determinism given the seed and (b) that `uniform(a, b)` draws
lie in `[a, b)`.
-/

/-- A single DataFrame cell: a string, a finite numeric value (a rational,
the exact model of the float), or an IEEE non-finite value. -/
inductive Cell where
  | str : String → Cell
  | num : ℚ → Cell
  | nan : Cell
  | pinf : Cell
  | ninf : Cell
deriving DecidableEq, Repr

namespace Cell

/-- Elementwise addition as pandas/NumPy perform it on float columns.
Arithmetic on a string cell is outside the modelled fragment (the source never
applies it to a non-numeric column); it is sent to `nan`. -/
def cadd : Cell → Cell → Cell
  | num a, num b => num (a + b)
  | num _, pinf => pinf
  | pinf, num _ => pinf
  | num _, ninf => ninf
  | ninf, num _ => ninf
  | pinf, pinf => pinf
  | ninf, ninf => ninf
  | _, _ => nan

/-- Elementwise subtraction with IEEE non-finite behaviour. -/
def csub : Cell → Cell → Cell
  | num a, num b => num (a - b)
  | num _, pinf => ninf
  | pinf, num _ => pinf
  | num _, ninf => pinf
  | ninf, num _ => ninf
  | pinf, ninf => pinf
  | ninf, pinf => ninf
  | _, _ => nan

/-- Elementwise multiplication with IEEE non-finite behaviour
(`inf * 0 = nan`, sign rules otherwise). -/
def cmul : Cell → Cell → Cell
  | num a, num b => num (a * b)
  | num a, pinf => if a = 0 then nan else if 0 < a then pinf else ninf
  | pinf, num a => if a = 0 then nan else if 0 < a then pinf else ninf
  | num a, ninf => if a = 0 then nan else if 0 < a then ninf else pinf
  | ninf, num a => if a = 0 then nan else if 0 < a then ninf else pinf
  | pinf, pinf => pinf
  | ninf, ninf => pinf
  | pinf, ninf => ninf
  | ninf, pinf => ninf
  | _, _ => nan

/-- Elementwise division as NumPy performs it on float columns:
`0.0 / 0.0 = nan`, `a / 0.0 = ±inf` for finite nonzero `a` (an unsigned zero
is treated as `+0`), finite / infinite = 0. -/
def cdiv : Cell → Cell → Cell
  | num a, num b =>
      if b = 0 then (if a = 0 then nan else if 0 < a then pinf else ninf)
      else num (a / b)
  | num _, pinf => num 0
  | num _, ninf => num 0
  | pinf, num a => if 0 ≤ a then pinf else ninf
  | ninf, num a => if 0 ≤ a then ninf else pinf
  | _, _ => nan

/-- Strict descending comparison used when ordering rows by a column value:
finite numbers by their order, `+inf` above every finite number, `-inf` below,
`nan` and strings incomparable (pandas excludes them from ordering). -/
def cellGtB : Cell → Cell → Bool
  | num a, num b => decide (b < a)
  | pinf, num _ => true
  | pinf, ninf => true
  | num _, ninf => true
  | _, _ => false

end Cell

open Cell

/-- Lookup of a named column in a column list: the value of the first column
with the given name, `[]` when absent. -/
def getColList : List (String × List Cell) → String → List Cell
  | [], _ => []
  | p :: l, c => if p.1 = c then p.2 else getColList l c

/-- Membership test of a column name (the source's `col in df.columns`). -/
def hasColList : List (String × List Cell) → String → Bool
  | [], _ => false
  | p :: l, c => p.1 == c || hasColList l c

/-- Column assignment on a column list: replaces the value of an existing
column in place, otherwise appends the new column at the end — exactly pandas
DataFrame `__setitem__` (column names of a loaded CSV are unique). -/
def setColList : List (String × List Cell) → String → List Cell →
    List (String × List Cell)
  | [], c, vs => [(c, vs)]
  | p :: l, c, vs => if p.1 = c then (c, vs) :: l else p :: setColList l c vs

/-- A pandas DataFrame, embedded column-major: the row count and an ordered
list of named columns. -/
structure DF where
  nrows : Nat
  cols : List (String × List Cell)
deriving DecidableEq, Repr

namespace DF

/-- The source's `col in df.columns`. -/
def hasCol (df : DF) (c : String) : Bool :=
  hasColList df.cols c

/-- The source's `df[c]` (the source only reads columns it knows present). -/
def getColD (df : DF) (c : String) : List Cell :=
  getColList df.cols c

/-- The source's `df[c] = vs`. -/
def setCol (df : DF) (c : String) (vs : List Cell) : DF :=
  ⟨df.nrows, setColList df.cols c vs⟩

@[simp]
theorem nrows_setCol (df : DF) (c : String) (vs : List Cell) :
    (df.setCol c vs).nrows = df.nrows := rfl

theorem getColList_setColList (l : List (String × List Cell))
    (c c' : String) (vs : List Cell) :
    getColList (setColList l c vs) c' =
      if c' = c then vs else getColList l c' := by
  induction l with
  | nil =>
    by_cases hcc : c' = c
    · simp [setColList, getColList, hcc]
    · have hcc2 : ¬c = c' := fun h => hcc h.symm
      simp [setColList, getColList, hcc, hcc2]
  | cons p l ih =>
    by_cases hp : p.1 = c
    · by_cases hcc : c' = c
      · simp [setColList, getColList, hp, hcc]
      · have hcc2 : ¬c = c' := fun h => hcc h.symm
        simp [setColList, getColList, hp, hcc, hcc2]
    · by_cases hp' : p.1 = c' <;> by_cases hcc : c' = c <;>
        simp_all [setColList, getColList]

theorem getColD_setCol (df : DF) (c c' : String) (vs : List Cell) :
    (df.setCol c vs).getColD c' = if c' = c then vs else df.getColD c' :=
  getColList_setColList df.cols c c' vs

@[simp]
theorem getColD_setCol_self (df : DF) (c : String) (vs : List Cell) :
    (df.setCol c vs).getColD c = vs := by
  simp [getColD_setCol]

theorem getColD_setCol_ne (df : DF) (c c' : String) (vs : List Cell)
    (h : c' ≠ c) : (df.setCol c vs).getColD c' = df.getColD c' := by
  simp [getColD_setCol, h]

theorem hasColList_setColList (l : List (String × List Cell))
    (c c' : String) (vs : List Cell) :
    hasColList (setColList l c vs) c' = (c' == c || hasColList l c') := by
  induction l with
  | nil =>
    by_cases hcc : c' = c
    · simp [setColList, hasColList, hcc]
    · have hcc2 : ¬c = c' := fun h => hcc h.symm
      simp [setColList, hasColList, hcc, hcc2]
  | cons p l ih =>
    by_cases hp : p.1 = c <;> by_cases hcc : c' = c
    · subst hcc
      simp [setColList, hasColList, hp, ih]
    · have hb : (c == c') = false := by
        simpa using fun h : c = c' => hcc h.symm
      have hb2 : (c' == c) = false := by simpa using hcc
      simp [setColList, hasColList, hp, ih, hb, hb2]
    · subst hcc
      simp [setColList, hasColList, hp, ih, Bool.or_left_comm]
    · have hb2 : (c' == c) = false := by simpa using hcc
      simp [setColList, hasColList, hp, ih, hb2, Bool.or_left_comm]

@[simp]
theorem hasCol_setCol (df : DF) (c c' : String) (vs : List Cell) :
    (df.setCol c vs).hasCol c' = (c' == c || df.hasCol c') :=
  hasColList_setColList df.cols c c' vs

theorem setColList_not_has (l : List (String × List Cell)) (c : String)
    (vs : List Cell) (h : hasColList l c = false) :
    setColList l c vs = l ++ [(c, vs)] := by
  induction l with
  | nil => rfl
  | cons p l ih =>
    simp only [hasColList, Bool.or_eq_false_iff, beq_eq_false_iff_ne] at h
    simp [setColList, h.1, ih h.2]

theorem setCol_not_hasCol (df : DF) (c : String) (vs : List Cell)
    (h : df.hasCol c = false) :
    df.setCol c vs = ⟨df.nrows, df.cols ++ [(c, vs)]⟩ := by
  unfold setCol
  rw [setColList_not_has df.cols c vs h]

end DF

/-- The candidate projection-column names of `app.py` line 73, in source
order. -/
def projCandidates : List String :=
  ["FPTS", "Projection", "Points", "Avg", "proj", "FP"]

/-- The detection loop of lines 72-76: the first candidate name present among
the DataFrame's columns, `none` when there is no match. -/
def detectProjCol (df : DF) : Option String :=
  projCandidates.find? (fun c => df.hasCol c)

/-- `np.random.uniform(a, b, n)` drawn from the unit-uniform stream `u`
starting at stream position `off`: the i-th value is `a + (b - a) * u (off+i)`,
so it lies in `[a, b)` whenever `u` yields values in `[0, 1)`. -/
def uniformList (u : Nat → ℚ) (off : Nat) (a b : ℚ) (n : Nat) : List ℚ :=
  (List.range n).map (fun i => a + (b - a) * u (off + i))

/-- A list of rationals as a numeric DataFrame column. -/
def numCol (l : List ℚ) : List Cell :=
  l.map Cell.num

/-- Number of unit draws consumed before the `Sim_Mean` draw: the fabrication
branch of lines 78-81 consumes one uniform draw per row when no projection
column was detected, and nothing otherwise. -/
def projOffset (df : DF) : Nat :=
  match detectProjCol df with
  | some _ => 0
  | none => df.nrows

/-- The simulation pipeline of `app.py` lines 69-105, as a function of the
seeded unit-uniform stream `u` and the uploaded DataFrame.  It mirrors the
source statement by statement: detect (or fabricate, lines 78-81) the
projection column, then assign the nine derived columns in source order,
each computed elementwise from columns of the frame as it stands. -/
def runSim (u : Nat → ℚ) (df0 : DF) : DF :=
  let n := df0.nrows
  let df1 := match detectProjCol df0 with
    | some _ => df0
    | none => df0.setCol "Projection" (numCol (uniformList u 0 5 30 n))
  let projCol := (detectProjCol df0).getD "Projection"
  let off := projOffset df0
  let df2 := df1.setCol "Sim_Mean"
    (List.zipWith cmul (df1.getColD projCol)
      (numCol (uniformList u off 0.95 1.05 n)))
  let df3 := df2.setCol "Sim_StdDev"
    (List.zipWith cmul (df2.getColD "Sim_Mean")
      (numCol (uniformList u (off + n) 0.25 0.35 n)))
  let df4 := df3.setCol "Floor_10%"
    (List.zipWith (fun m s => csub m (cmul (Cell.num 1.28) s))
      (df3.getColD "Sim_Mean") (df3.getColD "Sim_StdDev"))
  let df5 := df4.setCol "Ceiling_90%"
    (List.zipWith (fun m s => cadd m (cmul (Cell.num 1.28) s))
      (df4.getColD "Sim_Mean") (df4.getColD "Sim_StdDev"))
  let df6 := df5.setCol "Boom_Score"
    (numCol (uniformList u (off + 2 * n) 0 100 n))
  let df7 := df6.setCol "Bust_Risk"
    ((df6.getColD "Boom_Score").map (fun b => csub (Cell.num 100) b))
  let df8 := df7.setCol "Leverage_Score"
    (numCol (uniformList u (off + 3 * n) 0 100 n))
  let df9 := df8.setCol "Ceiling_Prob"
    ((df8.getColD "Boom_Score").map (fun b => cmul b (Cell.num 0.01)))
  df9.setCol "Consistency"
    (List.zipWith
      (fun s m => csub (Cell.num 100) (cmul (cdiv s m) (Cell.num 100)))
      (df9.getColD "Sim_StdDev") (df9.getColD "Sim_Mean"))

/-- One step of the deterministic pseudo-random recurrence standing in for
NumPy's seeded global Mersenne-Twister generator.  The claims only rely on
the generator being a fixed deterministic function of the seed, which holds
of the real MT19937 exactly as it holds of this stand-in. -/
def lcgStep (s : Nat) : Nat :=
  (6364136223846793005 * s + 1442695040888963407) % 18446744073709551616

/-- Iterated generator state after `i` steps from a seed. -/
def lcgIter (seed : Nat) : Nat → Nat
  | 0 => lcgStep seed
  | i + 1 => lcgStep (lcgIter seed i)

/-- The unit-uniform stream produced by the global generator after seeding:
value `i` lies in `[0, 1)`. -/
def mtStream (seed : Nat) (i : Nat) : ℚ :=
  (((lcgIter seed i) % 9007199254740992 : Nat) : ℚ) / 9007199254740992

theorem mtStream_mem (seed i : Nat) :
    0 ≤ mtStream seed i ∧ mtStream seed i < 1 := by
  unfold mtStream
  constructor
  · positivity
  · rw [div_lt_one (by norm_num)]
    have h : (lcgIter seed i) % 9007199254740992 < 9007199254740992 :=
      Nat.mod_lt _ (by norm_num)
    exact_mod_cast h

/-- The Run-Simulations button handler (lines 60-111) as a function of the
global generator state `g` it inherits, the uploaded DataFrame and the
sidebar simulation count.  Line 69 executes `np.random.seed(42)`, replacing
`g` by the stream seeded with the constant 42; `n_sims` only appears in
display text and never enters the computation. -/
def appRun (g : Nat → ℚ) (df : DF) (nSims : Nat) : DF :=
  runSim (mtStream 42) df

/-- The name column chosen on line 133: the column `Name` if present,
otherwise the first column of the results table. -/
def nameColOf (df : DF) : String :=
  if df.hasCol "Name" then "Name" else (df.cols.map Prod.fst).getD 0 ""

/-- The row ordering realised by `df.nlargest(k, col)` with the default
`keep` of first: rows with strictly larger key values first, rows with equal
key values in their original positions. -/
def nlargestOrd (key : Nat → Cell) (i j : Nat) : Prop :=
  cellGtB (key i) (key j) = true ∨ (key i = key j ∧ i ≤ j)

instance (key : Nat → Cell) : DecidableRel (nlargestOrd key) := fun i j => by
  unfold nlargestOrd
  infer_instance

/-- Key of row `i` in the Boom_Score column of the results table. -/
def boomKey (df : DF) (i : Nat) : Cell :=
  (df.getColD "Boom_Score").getD i (Cell.num 0)

/-- The row indices selected by `df_results.nlargest(10, 'Boom_Score')` on
line 133. -/
def topBoomsIdx (df : DF) : List Nat :=
  (List.insertionSort (nlargestOrd (boomKey df)) (List.range df.nrows)).take 10

/-- The Top Boom Plays table of lines 133-134: for each selected row, the
name cell (from `Name` or the first column), the boom score and the ceiling. -/
def topBooms (df : DF) : List (List Cell) :=
  (topBoomsIdx df).map (fun i =>
    [(df.getColD (nameColOf df)).getD i Cell.nan,
     (df.getColD "Boom_Score").getD i Cell.nan,
     (df.getColD "Ceiling_90%").getD i Cell.nan])

/-- Well-formedness of a loaded DataFrame: every column has one cell per row
(pandas guarantees this for any frame read from a CSV). -/
def DF.wf (df : DF) : Prop :=
  ∀ p ∈ df.cols, p.2.length = df.nrows

/-- The nine columns added by the pipeline, in assignment order. -/
def metricNames : List String :=
  ["Sim_Mean", "Sim_StdDev", "Floor_10%", "Ceiling_90%", "Boom_Score",
   "Bust_Risk", "Leverage_Score", "Ceiling_Prob", "Consistency"]

/-- The frame after the projection-detection stage (lines 72-81): unchanged
when a candidate column exists, otherwise extended with the fabricated
`Projection` column. -/
def fabStage (u : Nat → ℚ) (df : DF) : DF :=
  match detectProjCol df with
  | some _ => df
  | none => df.setCol "Projection" (numCol (uniformList u 0 5 30 df.nrows))

/-- The projection column the pipeline multiplies from: the detected column,
or the fabricated one. -/
def projCells (u : Nat → ℚ) (df : DF) : List Cell :=
  match detectProjCol df with
  | some c => df.getColD c
  | none => numCol (uniformList u 0 5 30 df.nrows)

/-- The `Sim_Mean` column: projection times a uniform draw in `[0.95, 1.05)`. -/
def simMeanCells (u : Nat → ℚ) (df : DF) : List Cell :=
  List.zipWith cmul (projCells u df)
    (numCol (uniformList u (projOffset df) 0.95 1.05 df.nrows))

/-- The `Sim_StdDev` column: `Sim_Mean` times a uniform draw in `[0.25, 0.35)`. -/
def simStdCells (u : Nat → ℚ) (df : DF) : List Cell :=
  List.zipWith cmul (simMeanCells u df)
    (numCol (uniformList u (projOffset df + df.nrows) 0.25 0.35 df.nrows))

/-- The `Boom_Score` column: a uniform draw in `[0, 100)`. -/
def boomCells (u : Nat → ℚ) (df : DF) : List Cell :=
  numCol (uniformList u (projOffset df + 2 * df.nrows) 0 100 df.nrows)

theorem runSim_nrows (u : Nat → ℚ) (df : DF) :
    (runSim u df).nrows = df.nrows := by
  unfold runSim
  cases hdet : detectProjCol df <;> simp [hdet]

theorem runSim_simMean (u : Nat → ℚ) (df : DF) :
    (runSim u df).getColD "Sim_Mean" = simMeanCells u df := by
  unfold runSim simMeanCells projCells projOffset
  cases hdet : detectProjCol df <;>
    simp [hdet, DF.getColD_setCol]

theorem runSim_simStd (u : Nat → ℚ) (df : DF) :
    (runSim u df).getColD "Sim_StdDev" = simStdCells u df := by
  unfold runSim simStdCells simMeanCells projCells projOffset
  cases hdet : detectProjCol df <;>
    simp [hdet, DF.getColD_setCol]

theorem runSim_floor (u : Nat → ℚ) (df : DF) :
    (runSim u df).getColD "Floor_10%" =
      List.zipWith (fun m s => csub m (cmul (Cell.num 1.28) s))
        (simMeanCells u df) (simStdCells u df) := by
  unfold runSim simStdCells simMeanCells projCells projOffset
  cases hdet : detectProjCol df <;>
    simp [hdet, DF.getColD_setCol]

theorem runSim_ceiling (u : Nat → ℚ) (df : DF) :
    (runSim u df).getColD "Ceiling_90%" =
      List.zipWith (fun m s => cadd m (cmul (Cell.num 1.28) s))
        (simMeanCells u df) (simStdCells u df) := by
  unfold runSim simStdCells simMeanCells projCells projOffset
  cases hdet : detectProjCol df <;>
    simp [hdet, DF.getColD_setCol]

theorem runSim_boom (u : Nat → ℚ) (df : DF) :
    (runSim u df).getColD "Boom_Score" = boomCells u df := by
  unfold runSim boomCells projOffset
  cases hdet : detectProjCol df <;>
    simp [hdet, DF.getColD_setCol]

theorem runSim_bust (u : Nat → ℚ) (df : DF) :
    (runSim u df).getColD "Bust_Risk" =
      (boomCells u df).map (fun b => csub (Cell.num 100) b) := by
  unfold runSim boomCells projOffset
  cases hdet : detectProjCol df <;>
    simp [hdet, DF.getColD_setCol]

theorem runSim_leverage (u : Nat → ℚ) (df : DF) :
    (runSim u df).getColD "Leverage_Score" =
      numCol (uniformList u (projOffset df + 3 * df.nrows) 0 100 df.nrows) := by
  unfold runSim projOffset
  cases hdet : detectProjCol df <;>
    simp [hdet, DF.getColD_setCol]

theorem runSim_ceilProb (u : Nat → ℚ) (df : DF) :
    (runSim u df).getColD "Ceiling_Prob" =
      (boomCells u df).map (fun b => cmul b (Cell.num 0.01)) := by
  unfold runSim boomCells projOffset
  cases hdet : detectProjCol df <;>
    simp [hdet, DF.getColD_setCol]

theorem runSim_consistency (u : Nat → ℚ) (df : DF) :
    (runSim u df).getColD "Consistency" =
      List.zipWith
        (fun s m => csub (Cell.num 100) (cmul (cdiv s m) (Cell.num 100)))
        (simStdCells u df) (simMeanCells u df) := by
  unfold runSim simStdCells simMeanCells projCells projOffset
  cases hdet : detectProjCol df <;>
    simp [hdet, DF.getColD_setCol]

theorem runSim_other (u : Nat → ℚ) (df : DF) (c : String)
    (hc : c ∉ metricNames) :
    (runSim u df).getColD c = (fabStage u df).getColD c := by
  unfold runSim fabStage
  simp only [metricNames, List.mem_cons, List.not_mem_nil, or_false] at hc
  push_neg at hc
  obtain ⟨h1, h2, h3, h4, h5, h6, h7, h8, h9⟩ := hc
  cases hdet : detectProjCol df <;>
    simp [hdet, DF.getColD_setCol, h1, h2, h3, h4, h5, h6, h7, h8, h9]

theorem length_uniformList (u : Nat → ℚ) (off : Nat) (a b : ℚ) (n : Nat) :
    (uniformList u off a b n).length = n := by
  simp [uniformList]

theorem length_numCol (l : List ℚ) : (numCol l).length = l.length := by
  simp [numCol]

theorem numCol_uniform_getD (u : Nat → ℚ) (off : Nat) (a b : ℚ) (n i : Nat)
    (h : i < n) (d : Cell) :
    (numCol (uniformList u off a b n)).getD i d =
      Cell.num (a + (b - a) * u (off + i)) := by
  have hl : i < (numCol (uniformList u off a b n)).length := by
    rw [length_numCol, length_uniformList]
    exact h
  rw [List.getD_eq_getElem _ _ hl]
  simp [numCol, uniformList]

theorem zipWith_getD (f : Cell → Cell → Cell) (xs ys : List Cell) (i : Nat)
    (hx : i < xs.length) (hy : i < ys.length) (d : Cell) :
    (List.zipWith f xs ys).getD i d = f (xs.getD i d) (ys.getD i d) := by
  have hl : i < (List.zipWith f xs ys).length := by
    rw [List.length_zipWith]
    omega
  rw [List.getD_eq_getElem _ _ hl, List.getD_eq_getElem _ _ hx,
    List.getD_eq_getElem _ _ hy]
  simp

theorem map_getD (f : Cell → Cell) (xs : List Cell) (i : Nat)
    (h : i < xs.length) (d : Cell) :
    (xs.map f).getD i d = f (xs.getD i d) := by
  have hl : i < (xs.map f).length := by simpa using h
  rw [List.getD_eq_getElem _ _ hl, List.getD_eq_getElem _ _ h]
  simp

theorem getD_mem (xs : List Cell) (i : Nat) (h : i < xs.length) (d : Cell) :
    xs.getD i d ∈ xs := by
  rw [List.getD_eq_getElem _ _ h]
  exact List.getElem_mem _

theorem getColList_length (l : List (String × List Cell)) (c : String) (n : Nat)
    (hw : ∀ p ∈ l, p.2.length = n) (h : hasColList l c = true) :
    (getColList l c).length = n := by
  induction l with
  | nil => simp [hasColList] at h
  | cons p l ih =>
    by_cases hp : p.1 = c
    · simpa [getColList, hp] using hw p (by simp)
    · have h2 : hasColList l c = true := by
        simpa [hasColList, hp] using h
      simpa [getColList, hp] using ih (fun q hq => hw q (by simp [hq])) h2

theorem DF.getColD_length (df : DF) (c : String) (hw : df.wf)
    (h : df.hasCol c = true) : (df.getColD c).length = df.nrows :=
  getColList_length df.cols c df.nrows hw h

theorem detect_hasCol (df : DF) (c : String) (h : detectProjCol df = some c) :
    df.hasCol c = true :=
  List.find?_some h

theorem detect_none_hasCol (df : DF) (h : detectProjCol df = none) (c : String)
    (hc : c ∈ projCandidates) : df.hasCol c = false := by
  simpa using List.find?_eq_none.mp h c hc

theorem projCells_length (u : Nat → ℚ) (df : DF) (hw : df.wf) :
    (projCells u df).length = df.nrows := by
  unfold projCells
  cases hdet : detectProjCol df with
  | some c => exact df.getColD_length c hw (detect_hasCol df c hdet)
  | none => rw [length_numCol, length_uniformList]

theorem simMeanCells_length (u : Nat → ℚ) (df : DF) (hw : df.wf) :
    (simMeanCells u df).length = df.nrows := by
  unfold simMeanCells
  rw [List.length_zipWith, projCells_length u df hw, length_numCol,
    length_uniformList, Nat.min_self]

theorem simStdCells_length (u : Nat → ℚ) (df : DF) (hw : df.wf) :
    (simStdCells u df).length = df.nrows := by
  unfold simStdCells
  rw [List.length_zipWith, simMeanCells_length u df hw, length_numCol,
    length_uniformList, Nat.min_self]

theorem boomCells_length (u : Nat → ℚ) (df : DF) :
    (boomCells u df).length = df.nrows := by
  unfold boomCells
  rw [length_numCol, length_uniformList]

/-- Is a cell a finite number? -/
def isNumCell : Cell → Bool
  | Cell.num _ => true
  | _ => false

/-- Is a cell a non-negative finite number? -/
def nonnegNumCell : Cell → Bool
  | Cell.num q => decide (0 ≤ q)
  | _ => false

/-- The cells of the detected projection column, `[]` when detection fails
and the pipeline fabricates one instead. -/
def detectedCells (df : DF) : List Cell :=
  match detectProjCol df with
  | some c => df.getColD c
  | none => []

/-- The input's detected projection column is numeric — the valid-input
condition of the spec (a non-numeric projection is an InputError). -/
def numericProj (df : DF) : Prop :=
  ∀ x ∈ detectedCells df, isNumCell x = true

/-- The input's detected projection column consists of non-negative numbers —
the spec's data-model invariant on base projections. -/
def nonnegProj (df : DF) : Prop :=
  ∀ x ∈ detectedCells df, nonnegNumCell x = true

/-- The random stream yields unit-interval values, as NumPy's unit uniforms
do. -/
def unitStream (u : Nat → ℚ) : Prop :=
  ∀ j, 0 ≤ u j ∧ u j < 1

theorem mtStream_unit (seed : Nat) : unitStream (mtStream seed) :=
  fun i => mtStream_mem seed i

/-- Per-row arithmetic content of the pipeline: for a well-formed frame with a
numeric (detected or fabricated) projection column and a unit stream, row `i`
has projection value `p`, `Sim_Mean = p * a` with `a` drawn uniformly from
`[0.95, 1.05)` and `Sim_StdDev = p * a * b` with `b` drawn uniformly from
`[0.25, 0.35)`. -/
theorem pipeline_cells (u : Nat → ℚ) (df : DF) (hu : unitStream u)
    (hw : df.wf) (hp : numericProj df) (i : Nat) (hi : i < df.nrows) :
    ∃ p a b : ℚ,
      (projCells u df).getD i Cell.nan = Cell.num p ∧
      (simMeanCells u df).getD i Cell.nan = Cell.num (p * a) ∧
      (simStdCells u df).getD i Cell.nan = Cell.num (p * a * b) ∧
      0.95 ≤ a ∧ a < 1.05 ∧ 0.25 ≤ b ∧ b < 0.35 ∧
      (nonnegProj df → 0 ≤ p) ∧
      (detectProjCol df = none → 5 ≤ p ∧ p < 30) := by
  have hlp := projCells_length u df hw
  have hproj : ∃ p : ℚ,
      (projCells u df).getD i Cell.nan = Cell.num p ∧
      (nonnegProj df → 0 ≤ p) ∧
      (detectProjCol df = none → 5 ≤ p ∧ p < 30) := by
    cases hdet : detectProjCol df with
    | some c =>
      have hpc : projCells u df = df.getColD c := by
        unfold projCells
        rw [hdet]
      have hdc : detectedCells df = df.getColD c := by
        unfold detectedCells
        rw [hdet]
      have hmem : (projCells u df).getD i Cell.nan ∈ detectedCells df := by
        rw [hpc, hdc]
        exact getD_mem _ i (by rw [hpc] at hlp; rw [hlp]; exact hi) _
      have hnum := hp _ hmem
      obtain ⟨q, hcell⟩ :
          ∃ q : ℚ, (projCells u df).getD i Cell.nan = Cell.num q := by
        cases hcell : (projCells u df).getD i Cell.nan with
        | str s => rw [hcell] at hnum; simp [isNumCell] at hnum
        | num q => exact ⟨q, rfl⟩
        | nan => rw [hcell] at hnum; simp [isNumCell] at hnum
        | pinf => rw [hcell] at hnum; simp [isNumCell] at hnum
        | ninf => rw [hcell] at hnum; simp [isNumCell] at hnum
      refine ⟨q, hcell, ?_, ?_⟩
      · intro hnn
        have h2 := hnn _ hmem
        rw [hcell] at h2
        simpa [nonnegNumCell] using h2
      · intro hnone
        exact absurd hnone (by simp)
    | none =>
      have hpc : projCells u df =
          numCol (uniformList u 0 5 30 df.nrows) := by
        unfold projCells
        rw [hdet]
      rw [hpc]
      rw [numCol_uniform_getD u 0 5 30 df.nrows i hi]
      refine ⟨5 + (30 - 5) * u (0 + i), rfl, ?_, ?_⟩
      · intro _
        have := (hu (0 + i)).1
        nlinarith
      · intro _
        have h1 := (hu (0 + i)).1
        have h2 := (hu (0 + i)).2
        constructor <;> nlinarith
  obtain ⟨p, hpcell, hpnn, hpfab⟩ := hproj
  set a : ℚ := 0.95 + (1.05 - 0.95) * u (projOffset df + i) with ha
  set b : ℚ := 0.25 + (0.35 - 0.25) * u (projOffset df + df.nrows + i) with hb
  have hmean : (simMeanCells u df).getD i Cell.nan = Cell.num (p * a) := by
    unfold simMeanCells
    rw [zipWith_getD cmul _ _ i (by rw [hlp]; exact hi)
      (by rw [length_numCol, length_uniformList]; exact hi) Cell.nan]
    rw [hpcell, numCol_uniform_getD u (projOffset df) 0.95 1.05 df.nrows i hi]
    rfl
  have hstd : (simStdCells u df).getD i Cell.nan = Cell.num (p * a * b) := by
    unfold simStdCells
    rw [zipWith_getD cmul _ _ i (by rw [simMeanCells_length u df hw]; exact hi)
      (by rw [length_numCol, length_uniformList]; exact hi) Cell.nan]
    rw [hmean,
      numCol_uniform_getD u (projOffset df + df.nrows) 0.25 0.35 df.nrows i hi]
    rfl
  have hua := hu (projOffset df + i)
  have hub := hu (projOffset df + df.nrows + i)
  refine ⟨p, a, b, hpcell, hmean, hstd, ?_, ?_, ?_, ?_, hpnn, hpfab⟩
  · rw [ha]; nlinarith [hua.1]
  · rw [ha]; nlinarith [hua.2]
  · rw [hb]; nlinarith [hub.1]
  · rw [hb]; nlinarith [hub.2]

/-- C4: the Run-Simulations handler is oblivious to the generator state it
inherits (line 69 re-seeds with the constant 42) and to everything but the
uploaded frame, so two runs on identical inputs produce identical output
frames. -/
theorem run_deterministic (g1 g2 : Nat → ℚ) (df : DF) (nSims : Nat) :
    appRun g1 df nSims = appRun g2 df nSims := rfl

/-- C3: for every frame and unit random stream, every player row gets a boom
score and a bust risk that are each in [0, 100] and sum to exactly 100. -/
theorem boom_bust_complementary (u : Nat → ℚ) (df : DF) (hu : unitStream u)
    (i : Nat) (hi : i < df.nrows) :
    ∃ bm bu : ℚ,
      ((runSim u df).getColD "Boom_Score").getD i Cell.nan = Cell.num bm ∧
      ((runSim u df).getColD "Bust_Risk").getD i Cell.nan = Cell.num bu ∧
      bm + bu = 100 ∧ 0 ≤ bm ∧ bm ≤ 100 ∧ 0 ≤ bu ∧ bu ≤ 100 := by
  have h1 : (boomCells u df).getD i Cell.nan =
      Cell.num (0 + (100 - 0) * u (projOffset df + 2 * df.nrows + i)) := by
    unfold boomCells
    exact numCol_uniform_getD u _ 0 100 df.nrows i hi Cell.nan
  have h2 : ((boomCells u df).map (fun b => csub (Cell.num 100) b)).getD
        i Cell.nan =
      Cell.num (100 - (0 + (100 - 0) *
        u (projOffset df + 2 * df.nrows + i))) := by
    rw [map_getD _ _ i (by rw [boomCells_length]; exact hi) Cell.nan, h1]
    rfl
  rw [runSim_boom, runSim_bust, h1, h2]
  obtain ⟨hu0, hu1⟩ := hu (projOffset df + 2 * df.nrows + i)
  refine ⟨_, _, rfl, rfl, by ring, by nlinarith, by nlinarith, by nlinarith,
    by nlinarith⟩

/-- C5: for a well-formed frame whose projection column is non-negative
numeric, every row satisfies floor ≤ mean ≤ ceiling. -/
theorem floor_mean_ceiling (u : Nat → ℚ) (df : DF) (hu : unitStream u)
    (hw : df.wf) (hp : nonnegProj df) (i : Nat) (hi : i < df.nrows) :
    ∃ f m c : ℚ,
      ((runSim u df).getColD "Floor_10%").getD i Cell.nan = Cell.num f ∧
      ((runSim u df).getColD "Sim_Mean").getD i Cell.nan = Cell.num m ∧
      ((runSim u df).getColD "Ceiling_90%").getD i Cell.nan = Cell.num c ∧
      f ≤ m ∧ m ≤ c := by
  have hnum : numericProj df := fun x hx => by
    have h := hp x hx
    cases x <;> simp [nonnegNumCell, isNumCell] at h ⊢
  obtain ⟨p, a, b, hpc, hm, hs, ha1, ha2, hb1, hb2, hnn, hfab⟩ :=
    pipeline_cells u df hu hw hnum i hi
  have hp0 : 0 ≤ p := hnn hp
  have hmlen := simMeanCells_length u df hw
  have hslen := simStdCells_length u df hw
  have hm0 : 0 ≤ p * a := mul_nonneg hp0 (by nlinarith)
  have hs0 : 0 ≤ p * a * b := mul_nonneg hm0 (by nlinarith)
  have hfloor : ((runSim u df).getColD "Floor_10%").getD i Cell.nan =
      Cell.num (p * a - 1.28 * (p * a * b)) := by
    rw [runSim_floor, zipWith_getD _ _ _ i (by rw [hmlen]; exact hi)
      (by rw [hslen]; exact hi) Cell.nan, hm, hs]
    rfl
  have hceil : ((runSim u df).getColD "Ceiling_90%").getD i Cell.nan =
      Cell.num (p * a + 1.28 * (p * a * b)) := by
    rw [runSim_ceiling, zipWith_getD _ _ _ i (by rw [hmlen]; exact hi)
      (by rw [hslen]; exact hi) Cell.nan, hm, hs]
    rfl
  have hmean : ((runSim u df).getColD "Sim_Mean").getD i Cell.nan =
      Cell.num (p * a) := by
    rw [runSim_simMean, hm]
  exact ⟨_, _, _, hfloor, hmean, hceil, by nlinarith, by nlinarith⟩

/-- C6: for a well-formed frame whose projection column is non-negative
numeric, the reported floor (and the mean, standard deviation and ceiling)
of every row are non-negative. -/
theorem floor_nonneg (u : Nat → ℚ) (df : DF) (hu : unitStream u)
    (hw : df.wf) (hp : nonnegProj df) (i : Nat) (hi : i < df.nrows) :
    ∃ f m s c : ℚ,
      ((runSim u df).getColD "Floor_10%").getD i Cell.nan = Cell.num f ∧
      ((runSim u df).getColD "Sim_Mean").getD i Cell.nan = Cell.num m ∧
      ((runSim u df).getColD "Sim_StdDev").getD i Cell.nan = Cell.num s ∧
      ((runSim u df).getColD "Ceiling_90%").getD i Cell.nan = Cell.num c ∧
      0 ≤ f ∧ 0 ≤ m ∧ 0 ≤ s ∧ 0 ≤ c := by
  have hnum : numericProj df := fun x hx => by
    have h := hp x hx
    cases x <;> simp [nonnegNumCell, isNumCell] at h ⊢
  obtain ⟨p, a, b, hpc, hm, hs, ha1, ha2, hb1, hb2, hnn, hfab⟩ :=
    pipeline_cells u df hu hw hnum i hi
  have hp0 : 0 ≤ p := hnn hp
  have hmlen := simMeanCells_length u df hw
  have hslen := simStdCells_length u df hw
  have hm0 : 0 ≤ p * a := mul_nonneg hp0 (by nlinarith)
  have hs0 : 0 ≤ p * a * b := mul_nonneg hm0 (by nlinarith)
  have hfloor : ((runSim u df).getColD "Floor_10%").getD i Cell.nan =
      Cell.num (p * a - 1.28 * (p * a * b)) := by
    rw [runSim_floor, zipWith_getD _ _ _ i (by rw [hmlen]; exact hi)
      (by rw [hslen]; exact hi) Cell.nan, hm, hs]
    rfl
  have hceil : ((runSim u df).getColD "Ceiling_90%").getD i Cell.nan =
      Cell.num (p * a + 1.28 * (p * a * b)) := by
    rw [runSim_ceiling, zipWith_getD _ _ _ i (by rw [hmlen]; exact hi)
      (by rw [hslen]; exact hi) Cell.nan, hm, hs]
    rfl
  have hfactor : (0 : ℚ) ≤ 1 - 1.28 * b := by nlinarith
  have hf0 : (0 : ℚ) ≤ p * a - 1.28 * (p * a * b) := by
    nlinarith [mul_nonneg hm0 hfactor]
  exact ⟨_, _, _, _, hfloor, by rw [runSim_simMean, hm],
    by rw [runSim_simStd, hs], hceil, hf0, hm0, hs0, by nlinarith⟩

/-- C2 (amended): the Consistency column is `100 - (std/mean)*100` with no
clamping.  Because `std/mean` is exactly the drawn volatility multiplier, the
value lies in (65, 75] ⊂ [0, 100] whenever the projection is nonzero; when
the projection is zero (mean = 0, std = 0), the float division 0/0 yields NaN
and the reported consistency is NaN — not 100 — while no error is raised. -/
theorem consistency_behaviour (u : Nat → ℚ) (df : DF) (hu : unitStream u)
    (hw : df.wf) (hp : numericProj df) (i : Nat) (hi : i < df.nrows) :
    ∃ p : ℚ,
      (projCells u df).getD i Cell.nan = Cell.num p ∧
      (p = 0 →
        ((runSim u df).getColD "Sim_Mean").getD i Cell.nan = Cell.num 0 ∧
        ((runSim u df).getColD "Sim_StdDev").getD i Cell.nan = Cell.num 0 ∧
        ((runSim u df).getColD "Consistency").getD i Cell.nan = Cell.nan) ∧
      (p ≠ 0 → ∃ q : ℚ,
        ((runSim u df).getColD "Consistency").getD i Cell.nan = Cell.num q ∧
        65 < q ∧ q ≤ 75) := by
  obtain ⟨p, a, b, hpc, hm, hs, ha1, ha2, hb1, hb2, hnn, hfab⟩ :=
    pipeline_cells u df hu hw hp i hi
  have hmlen := simMeanCells_length u df hw
  have hslen := simStdCells_length u df hw
  have hcons : ((runSim u df).getColD "Consistency").getD i Cell.nan =
      csub (Cell.num 100)
        (cmul (cdiv (Cell.num (p * a * b)) (Cell.num (p * a))) (Cell.num 100)) := by
    rw [runSim_consistency, zipWith_getD _ _ _ i (by rw [hslen]; exact hi)
      (by rw [hmlen]; exact hi) Cell.nan, hm, hs]
  refine ⟨p, hpc, ?_, ?_⟩
  · intro hp0
    subst hp0
    have hz2 : (0 : ℚ) * a * b = 0 := by ring
    have hz : (0 : ℚ) * a = 0 := by ring
    rw [hz2] at hs hcons
    rw [hz] at hm hcons
    refine ⟨by rw [runSim_simMean, hm], by rw [runSim_simStd, hs], ?_⟩
    rw [hcons]
    simp [Cell.cdiv, Cell.cmul, Cell.csub]
  · intro hpne
    have hane : a ≠ 0 := by nlinarith
    have hmne : p * a ≠ 0 := mul_ne_zero hpne hane
    have hq : cdiv (Cell.num (p * a * b)) (Cell.num (p * a)) = Cell.num b := by
      simp only [Cell.cdiv, hmne, if_false]
      congr 1
      field_simp
    rw [hcons, hq]
    refine ⟨100 - b * 100, rfl, by nlinarith, by nlinarith⟩

/-- The unit stream with every draw equal to one half, used for concrete
evaluations. -/
def uHalf : Nat → ℚ := fun _ => 1 / 2

theorem uHalf_unit : unitStream uHalf :=
  fun _ => ⟨by norm_num [uHalf], by norm_num [uHalf]⟩

/-- A one-player frame whose FPTS projection is 0. -/
def dfZero : DF :=
  ⟨1, [("Name", [Cell.str "A"]), ("FPTS", [Cell.num 0])]⟩

/-- C2 (counterexample): on a player with projection 0 the pipeline reports
Consistency = NaN, not the claimed 100. -/
theorem consistency_zero_counterexample :
    (runSim uHalf dfZero).getColD "Consistency" = [Cell.nan] ∧
    Cell.nan ≠ Cell.num 100 := by
  have hproj : projCells uHalf dfZero = [Cell.num 0] := rfl
  have hoff : projOffset dfZero = 0 := rfl
  have hmean : simMeanCells uHalf dfZero = [Cell.num 0] := by
    unfold simMeanCells
    rw [hproj, hoff]
    norm_num [numCol, uniformList, uHalf, List.range_succ, dfZero, Cell.cmul]
  have hstd : simStdCells uHalf dfZero = [Cell.num 0] := by
    unfold simStdCells
    rw [hmean, hoff]
    norm_num [numCol, uniformList, uHalf, List.range_succ, dfZero, Cell.cmul]
  constructor
  · rw [runSim_consistency, hstd, hmean]
    norm_num [Cell.cdiv, Cell.cmul, Cell.csub]
  · decide

/-- C9: the pipeline neither adds nor drops rows (the row count is preserved)
and leaves every input column that is not one of the nine metric names — in
particular the player-identifier column — exactly as it was, so each input
player keeps exactly one row in the output. -/
theorem rows_preserved (u : Nat → ℚ) (df : DF) :
    (runSim u df).nrows = df.nrows ∧
    ∀ c, df.hasCol c = true → c ∉ metricNames →
      (runSim u df).getColD c = df.getColD c := by
  refine ⟨runSim_nrows u df, fun c hc hcm => ?_⟩
  rw [runSim_other u df c hcm]
  unfold fabStage
  cases hdet : detectProjCol df with
  | some _ => rfl
  | none =>
    have hproj : df.hasCol "Projection" = false :=
      detect_none_hasCol df hdet "Projection" (by simp [projCandidates])
    have hne : c ≠ "Projection" := by
      intro h
      rw [h, hproj] at hc
      cases hc
    exact DF.getColD_setCol_ne df "Projection" c _ hne

/-- C1 (amended): when no candidate projection column exists, the pipeline
does not stop with an error; it fabricates a full `Projection` column of
uniform draws in [5, 30) and completes the entire simulation run. -/
theorem missing_projection_fabricates (u : Nat → ℚ) (df : DF)
    (hu : unitStream u) (hdet : detectProjCol df = none) :
    ((runSim u df).getColD "Projection").length = df.nrows ∧
    (∀ x ∈ (runSim u df).getColD "Projection",
      ∃ q : ℚ, x = Cell.num q ∧ 5 ≤ q ∧ q < 30) ∧
    ((runSim u df).getColD "Boom_Score").length = df.nrows := by
  have hother : (runSim u df).getColD "Projection" =
      numCol (uniformList u 0 5 30 df.nrows) := by
    rw [runSim_other u df "Projection" (by decide)]
    unfold fabStage
    rw [hdet]
    exact DF.getColD_setCol_self df "Projection" _
  refine ⟨?_, ?_, ?_⟩
  · rw [hother, length_numCol, length_uniformList]
  · rw [hother]
    intro x hx
    simp only [numCol, uniformList, List.mem_map, List.mem_range] at hx
    obtain ⟨y, ⟨j, hj, rfl⟩, rfl⟩ := hx
    obtain ⟨h0, h1⟩ := hu (0 + j)
    exact ⟨_, rfl, by nlinarith, by nlinarith⟩
  · rw [runSim_boom, boomCells_length]

/-- A one-player frame with no candidate projection column at all. -/
def dfNoProj : DF :=
  ⟨1, [("Name", [Cell.str "A"])]⟩

/-- C1 (counterexample): on an input without any projection column the code
does not surface an error — it fabricates `Projection = 17.5` (a uniform
draw) and runs the whole simulation, producing a boom score. -/
theorem missing_projection_counterexample :
    detectProjCol dfNoProj = none ∧
    dfNoProj.getColD "Projection" = [] ∧
    (runSim uHalf dfNoProj).getColD "Projection" = [Cell.num (35 / 2)] ∧
    (runSim uHalf dfNoProj).getColD "Boom_Score" = [Cell.num 50] := by
  refine ⟨rfl, rfl, ?_, ?_⟩
  · rw [runSim_other uHalf dfNoProj "Projection" (by decide)]
    unfold fabStage
    rw [show detectProjCol dfNoProj = none from rfl,
      DF.getColD_setCol_self]
    norm_num [numCol, uniformList, uHalf, List.range_succ, dfNoProj]
  · rw [runSim_boom]
    unfold boomCells
    rw [show projOffset dfNoProj = 1 from rfl]
    norm_num [numCol, uniformList, uHalf, List.range_succ, dfNoProj]

/-- The spec's example scenario pool: QB1 projected at 20 and WR1 at 15. -/
def dfExample : DF :=
  ⟨2, [("Name", [Cell.str "QB1", Cell.str "WR1"]),
       ("Position", [Cell.str "QB", Cell.str "WR"]),
       ("FPTS", [Cell.num 20, Cell.num 15])]⟩

/-- C8 (evaluation at the failing input): on the example pool the output
means do land on the projections, but the output consists of the three input
columns plus the nine scalar metric columns only — there are no per-draw
outcome columns, no correlation input and no seed input, so the claimed
sample correlation of 0.45 between outcome columns has no referent. -/
theorem example_scenario_eval :
    (runSim uHalf dfExample).getColD "Sim_Mean" =
      [Cell.num 20, Cell.num 15] ∧
    (runSim uHalf dfExample).cols.map Prod.fst =
      ["Name", "Position", "FPTS", "Sim_Mean", "Sim_StdDev", "Floor_10%",
       "Ceiling_90%", "Boom_Score", "Bust_Risk", "Leverage_Score",
       "Ceiling_Prob", "Consistency"] := by
  constructor
  · rw [runSim_simMean]
    unfold simMeanCells
    rw [show projCells uHalf dfExample = [Cell.num 20, Cell.num 15] from rfl,
      show projOffset dfExample = 0 from rfl]
    norm_num [numCol, uniformList, uHalf, List.range_succ, dfExample,
      Cell.cmul]
  · rfl

theorem cellGtB_num_iff (a b : ℚ) :
    cellGtB (Cell.num a) (Cell.num b) = true ↔ b < a := by
  simp [cellGtB]

/-- The results table's Boom_Score column is numeric (true of every table the
pipeline produces). -/
def numericBoom (df : DF) : Prop :=
  ∀ x ∈ df.getColD "Boom_Score", isNumCell x = true

theorem boomKey_num (df : DF) (h : numericBoom df) (i : Nat) :
    ∃ q : ℚ, boomKey df i = Cell.num q := by
  unfold boomKey
  by_cases hi : i < (df.getColD "Boom_Score").length
  · have hmem := getD_mem (df.getColD "Boom_Score") i hi (Cell.num 0)
    have hn := h _ hmem
    cases hcell : (df.getColD "Boom_Score").getD i (Cell.num 0) with
    | str s => rw [hcell] at hn; simp [isNumCell] at hn
    | num q => exact ⟨q, rfl⟩
    | nan => rw [hcell] at hn; simp [isNumCell] at hn
    | pinf => rw [hcell] at hn; simp [isNumCell] at hn
    | ninf => rw [hcell] at hn; simp [isNumCell] at hn
  · rw [List.getD_eq_default _ _ (Nat.le_of_not_lt hi)]
    exact ⟨0, rfl⟩

theorem nlargestOrd_total_of_num (df : DF) (h : numericBoom df) :
    ∀ i j, nlargestOrd (boomKey df) i j ∨ nlargestOrd (boomKey df) j i := by
  intro i j
  obtain ⟨qi, hqi⟩ := boomKey_num df h i
  obtain ⟨qj, hqj⟩ := boomKey_num df h j
  unfold nlargestOrd
  rw [hqi, hqj]
  rcases lt_trichotomy qi qj with hlt | heq | hgt
  · right
    left
    exact (cellGtB_num_iff qj qi).mpr hlt
  · subst heq
    rcases Nat.le_total i j with hij | hji
    · left
      right
      exact ⟨rfl, hij⟩
    · right
      right
      exact ⟨rfl, hji⟩
  · left
    left
    exact (cellGtB_num_iff qi qj).mpr hgt

theorem nlargestOrd_trans_of_num (df : DF) (h : numericBoom df) :
    ∀ i j k, nlargestOrd (boomKey df) i j → nlargestOrd (boomKey df) j k →
      nlargestOrd (boomKey df) i k := by
  intro i j k hij hjk
  obtain ⟨qi, hqi⟩ := boomKey_num df h i
  obtain ⟨qj, hqj⟩ := boomKey_num df h j
  obtain ⟨qk, hqk⟩ := boomKey_num df h k
  unfold nlargestOrd at hij hjk ⊢
  rw [hqi, hqj] at hij
  rw [hqj, hqk] at hjk
  rw [hqi, hqk]
  rcases hij with hgt1 | ⟨heq1, hle1⟩
  · rcases hjk with hgt2 | ⟨heq2, hle2⟩
    · left
      rw [cellGtB_num_iff] at hgt1 hgt2 ⊢
      exact lt_trans hgt2 hgt1
    · left
      have heq2' : qj = qk := by injection heq2
      rw [cellGtB_num_iff] at hgt1 ⊢
      rw [← heq2']
      exact hgt1
  · rcases hjk with hgt2 | ⟨heq2, hle2⟩
    · left
      have heq1' : qi = qj := by injection heq1
      rw [cellGtB_num_iff] at hgt2 ⊢
      rw [heq1']
      exact hgt2
    · right
      have heq1' : qi = qj := by injection heq1
      have heq2' : qj = qk := by injection heq2
      exact ⟨by rw [heq1', heq2'], Nat.le_trans hle1 hle2⟩

/-- C7 (amended): the Top Boom Plays view returns min(10, pool size) rows
(clamped, no error), each drawn from a distinct row of the results table, in
descending boom-score order with ties kept in their original row order
(pandas `nlargest` with `keep` = first) — not re-sorted by player identifier,
and with no deduplication of identifiers. -/
theorem top_booms_spec (df : DF) (h : numericBoom df) :
    (topBooms df).length = min 10 df.nrows ∧
    (topBoomsIdx df).Nodup ∧
    List.Pairwise (nlargestOrd (boomKey df)) (topBoomsIdx df) ∧
    ∀ i ∈ topBoomsIdx df, i < df.nrows := by
  have hsort := List.perm_insertionSort (nlargestOrd (boomKey df))
    (List.range df.nrows)
  refine ⟨?_, ?_, ?_, ?_⟩
  · unfold topBooms topBoomsIdx
    rw [List.length_map, List.length_take, List.length_insertionSort,
      List.length_range]
  · exact List.Nodup.sublist (List.take_sublist _ _)
      (hsort.nodup_iff.mpr (List.nodup_range _))
  · refine List.Pairwise.sublist (List.take_sublist _ _) ?_
    exact @List.sorted_insertionSort _ _ _
      ⟨nlargestOrd_total_of_num df h⟩ ⟨nlargestOrd_trans_of_num df h⟩ _
  · intro i hi
    have hmem : i ∈ List.insertionSort (nlargestOrd (boomKey df))
        (List.range df.nrows) :=
      List.Sublist.mem hi (List.take_sublist _ _)
    rw [List.mem_insertionSort] at hmem
    exact List.mem_range.mp hmem

/-- A three-player frame with duplicate identifiers and identifiers out of
order, used to exercise the ranker's tie handling. -/
def dfT : DF :=
  ⟨3, [("Name", [Cell.str "B", Cell.str "A", Cell.str "B"]),
       ("FPTS", [Cell.num 10, Cell.num 20, Cell.num 30])]⟩

/-- C7 (counterexample): running the app on `dfT` gives all three players the
same boom score, and the Top Boom Plays view then lists them as B, A, B —
ties are broken by original row position, not by player identifier, and the
duplicated identifier B appears twice. -/
theorem top_booms_counterexample :
    (topBooms (runSim uHalf dfT)).map (fun r => r.getD 0 Cell.nan) =
      [Cell.str "B", Cell.str "A", Cell.str "B"] ∧
    ¬ ((topBooms (runSim uHalf dfT)).map
        (fun r => r.getD 0 Cell.nan)).Nodup := by
  have hnrows : (runSim uHalf dfT).nrows = 3 := by
    rw [runSim_nrows]
    rfl
  have hboom : (runSim uHalf dfT).getColD "Boom_Score" =
      [Cell.num 50, Cell.num 50, Cell.num 50] := by
    rw [runSim_boom]
    unfold boomCells
    rw [show projOffset dfT = 0 from rfl]
    norm_num [numCol, uniformList, uHalf, List.range_succ, dfT]
  have hkey : boomKey (runSim uHalf dfT) =
      fun i => ([Cell.num 50, Cell.num 50, Cell.num 50]).getD i
        (Cell.num 0) := by
    funext i
    unfold boomKey
    rw [hboom]
  have hidx : topBoomsIdx (runSim uHalf dfT) = [0, 1, 2] := by
    unfold topBoomsIdx
    rw [hkey, hnrows]
    norm_num [List.range_succ, List.insertionSort, List.orderedInsert,
      nlargestOrd, cellGtB]
  have hnc : nameColOf (runSim uHalf dfT) = "Name" := rfl
  have hname : (runSim uHalf dfT).getColD "Name" =
      [Cell.str "B", Cell.str "A", Cell.str "B"] := by
    rw [runSim_other uHalf dfT "Name" (by decide)]
    rfl
  have hmap : (topBooms (runSim uHalf dfT)).map (fun r => r.getD 0 Cell.nan) =
      [Cell.str "B", Cell.str "A", Cell.str "B"] := by
    unfold topBooms
    rw [hidx, hnc, hname]
    rfl
  refine ⟨hmap, ?_⟩
  rw [hmap]
  decide

theorem map_fst_setColList (l : List (String × List Cell)) (c : String)
    (vs : List Cell) (h : hasColList l c = false) :
    (setColList l c vs).map Prod.fst = l.map Prod.fst ++ [c] := by
  rw [DF.setColList_not_has l c vs h]
  simp

theorem colNames_setCol (df : DF) (c : String) (vs : List Cell)
    (h : df.hasCol c = false) :
    (df.setCol c vs).cols.map Prod.fst = df.cols.map Prod.fst ++ [c] :=
  map_fst_setColList df.cols c vs h

/-- C10: on an input that already has a projection column and no column named
like one of the nine metrics, the pipeline appends exactly the nine metric
columns, in assignment order, after the input columns — whose names, order
and values it leaves untouched. -/
theorem frame_effect (u : Nat → ℚ) (df : DF) (c0 : String)
    (hdet : detectProjCol df = some c0)
    (hdisj : ∀ m ∈ metricNames, df.hasCol m = false) :
    (runSim u df).cols.map Prod.fst = df.cols.map Prod.fst ++ metricNames ∧
    ∀ c, df.hasCol c = true → (runSim u df).getColD c = df.getColD c := by
  constructor
  · have h1 := hdisj "Sim_Mean" (by decide)
    have h2 := hdisj "Sim_StdDev" (by decide)
    have h3 := hdisj "Floor_10%" (by decide)
    have h4 := hdisj "Ceiling_90%" (by decide)
    have h5 := hdisj "Boom_Score" (by decide)
    have h6 := hdisj "Bust_Risk" (by decide)
    have h7 := hdisj "Leverage_Score" (by decide)
    have h8 := hdisj "Ceiling_Prob" (by decide)
    have h9 := hdisj "Consistency" (by decide)
    unfold runSim
    rw [hdet]
    simp [colNames_setCol, DF.hasCol_setCol, h1, h2, h3, h4, h5, h6, h7, h8,
      h9, metricNames]
  · intro c hc
    have hcm : c ∉ metricNames := by
      intro hmem
      rw [hdisj c hmem] at hc
      cases hc
    rw [runSim_other u df c hcm]
    unfold fabStage
    rw [hdet]

instance (df : DF) : Decidable df.wf := by
  unfold DF.wf
  infer_instance

instance (df : DF) : Decidable (numericProj df) := by
  unfold numericProj
  infer_instance

instance (df : DF) : Decidable (nonnegProj df) := by
  unfold nonnegProj
  infer_instance

instance (df : DF) : Decidable (numericBoom df) := by
  unfold numericBoom
  infer_instance

/-- Witness instantiating `missing_projection_fabricates` on a concrete
frame without a projection column. -/
theorem missing_projection_fabricates_witness :
    unitStream uHalf ∧ detectProjCol dfNoProj = none ∧
    (((runSim uHalf dfNoProj).getColD "Projection").length = dfNoProj.nrows ∧
     (∀ x ∈ (runSim uHalf dfNoProj).getColD "Projection",
       ∃ q : ℚ, x = Cell.num q ∧ 5 ≤ q ∧ q < 30) ∧
     ((runSim uHalf dfNoProj).getColD "Boom_Score").length = dfNoProj.nrows) :=
  ⟨uHalf_unit, rfl, missing_projection_fabricates uHalf dfNoProj uHalf_unit rfl⟩

/-- Witness instantiating `consistency_behaviour` on the zero-projection
player. -/
theorem consistency_behaviour_witness :
    unitStream uHalf ∧ dfZero.wf ∧ numericProj dfZero ∧ 0 < dfZero.nrows ∧
    (∃ p : ℚ,
      (projCells uHalf dfZero).getD 0 Cell.nan = Cell.num p ∧
      (p = 0 →
        ((runSim uHalf dfZero).getColD "Sim_Mean").getD 0 Cell.nan =
          Cell.num 0 ∧
        ((runSim uHalf dfZero).getColD "Sim_StdDev").getD 0 Cell.nan =
          Cell.num 0 ∧
        ((runSim uHalf dfZero).getColD "Consistency").getD 0 Cell.nan =
          Cell.nan) ∧
      (p ≠ 0 → ∃ q : ℚ,
        ((runSim uHalf dfZero).getColD "Consistency").getD 0 Cell.nan =
          Cell.num q ∧ 65 < q ∧ q ≤ 75)) :=
  ⟨uHalf_unit, by decide, by decide, by decide,
   consistency_behaviour uHalf dfZero uHalf_unit (by decide) (by decide) 0
     (by decide)⟩

/-- Witness instantiating `boom_bust_complementary` on a concrete frame. -/
theorem boom_bust_complementary_witness :
    unitStream uHalf ∧ 0 < dfZero.nrows ∧
    (∃ bm bu : ℚ,
      ((runSim uHalf dfZero).getColD "Boom_Score").getD 0 Cell.nan =
        Cell.num bm ∧
      ((runSim uHalf dfZero).getColD "Bust_Risk").getD 0 Cell.nan =
        Cell.num bu ∧
      bm + bu = 100 ∧ 0 ≤ bm ∧ bm ≤ 100 ∧ 0 ≤ bu ∧ bu ≤ 100) :=
  ⟨uHalf_unit, by decide,
   boom_bust_complementary uHalf dfZero uHalf_unit 0 (by decide)⟩

/-- Witness instantiating `floor_mean_ceiling` on the example pool. -/
theorem floor_mean_ceiling_witness :
    unitStream uHalf ∧ dfExample.wf ∧ nonnegProj dfExample ∧
    0 < dfExample.nrows ∧
    (∃ f m c : ℚ,
      ((runSim uHalf dfExample).getColD "Floor_10%").getD 0 Cell.nan =
        Cell.num f ∧
      ((runSim uHalf dfExample).getColD "Sim_Mean").getD 0 Cell.nan =
        Cell.num m ∧
      ((runSim uHalf dfExample).getColD "Ceiling_90%").getD 0 Cell.nan =
        Cell.num c ∧
      f ≤ m ∧ m ≤ c) :=
  ⟨uHalf_unit, by decide, by decide, by decide,
   floor_mean_ceiling uHalf dfExample uHalf_unit (by decide) (by decide) 0
     (by decide)⟩

/-- Witness instantiating `floor_nonneg` on the example pool. -/
theorem floor_nonneg_witness :
    unitStream uHalf ∧ dfExample.wf ∧ nonnegProj dfExample ∧
    0 < dfExample.nrows ∧
    (∃ f m s c : ℚ,
      ((runSim uHalf dfExample).getColD "Floor_10%").getD 0 Cell.nan =
        Cell.num f ∧
      ((runSim uHalf dfExample).getColD "Sim_Mean").getD 0 Cell.nan =
        Cell.num m ∧
      ((runSim uHalf dfExample).getColD "Sim_StdDev").getD 0 Cell.nan =
        Cell.num s ∧
      ((runSim uHalf dfExample).getColD "Ceiling_90%").getD 0 Cell.nan =
        Cell.num c ∧
      0 ≤ f ∧ 0 ≤ m ∧ 0 ≤ s ∧ 0 ≤ c) :=
  ⟨uHalf_unit, by decide, by decide, by decide,
   floor_nonneg uHalf dfExample uHalf_unit (by decide) (by decide) 0
     (by decide)⟩

/-- Witness instantiating `rows_preserved` on a concrete frame and its
identifier column. -/
theorem rows_preserved_witness :
    dfZero.hasCol "Name" = true ∧ "Name" ∉ metricNames ∧
    ((runSim uHalf dfZero).nrows = dfZero.nrows ∧
     (runSim uHalf dfZero).getColD "Name" = dfZero.getColD "Name") :=
  ⟨by decide, by decide,
   ⟨(rows_preserved uHalf dfZero).1,
    (rows_preserved uHalf dfZero).2 "Name" (by decide) (by decide)⟩⟩

/-- A concrete two-row metrics table with numeric boom scores. -/
def dfB : DF :=
  ⟨2, [("Name", [Cell.str "A", Cell.str "B"]),
       ("Boom_Score", [Cell.num 60, Cell.num 40]),
       ("Ceiling_90%", [Cell.num 70, Cell.num 45])]⟩

/-- Witness instantiating `top_booms_spec` on a concrete metrics table. -/
theorem top_booms_spec_witness :
    numericBoom dfB ∧
    ((topBooms dfB).length = min 10 dfB.nrows ∧
     (topBoomsIdx dfB).Nodup ∧
     List.Pairwise (nlargestOrd (boomKey dfB)) (topBoomsIdx dfB) ∧
     ∀ i ∈ topBoomsIdx dfB, i < dfB.nrows) :=
  ⟨by decide, top_booms_spec dfB (by decide)⟩

/-- Witness instantiating `frame_effect` on the example pool. -/
theorem frame_effect_witness :
    detectProjCol dfExample = some "FPTS" ∧
    (∀ m ∈ metricNames, dfExample.hasCol m = false) ∧
    ((runSim uHalf dfExample).cols.map Prod.fst =
      dfExample.cols.map Prod.fst ++ metricNames ∧
     ∀ c, dfExample.hasCol c = true →
       (runSim uHalf dfExample).getColD c = dfExample.getColD c) :=
  ⟨rfl, by decide, frame_effect uHalf dfExample "FPTS" rfl (by decide)⟩
